/-
Verification of the async-translate client layer.

This file gives a shallow embedding, in Lean 4, of the pure control logic of
the `async-translate` Rust crate (error taxonomy and retry classification in
`src/error.rs`, the retry loop shared by `OpenAITranslator::translate_text_with_retry`
and `MicrosoftTranslator::translate_batch`, the sliding-window RPM governor
`wait_for_rate_limit`, round-robin key selection `get_next_key_index`,
the Microsoft token cache `get_auth_token` / `clear_cached_token`, and the
batch post-processing `translate_batch_to_strings`), together with theorems
settling the spec's claims about that logic.

Conventions of the embedding:
- machine integers become `Nat` (all quantities involved are non-negative and
  no overflow is reachable at the sizes involved);
- `Instant` values become `Nat` timestamps in seconds;
  `saturating_duration_since` becomes truncated `Nat` subtraction;
- fallible Rust code returning `Result<T, TranslationError>` becomes
  `Except TranslationError T`;
- the outcome of each network interaction is passed in as an explicit
  parameter (a function from the attempt index to an outcome), since the
  transport itself is an external collaborator;
- `sleep` calls are recorded as explicit delay values in the result, so that
  backoff schedules become provable data.
-/
import Mathlib

namespace AsyncTranslate

/-! ## Error taxonomy (src/error.rs)

`reqwest::Error` is opaque transport state; we model it by its message.
`reqwest::StatusCode` is modelled by the numeric status code. -/

/-- The `TranslationError` enum of `src/error.rs`. -/
inductive TranslationError where
  | NetworkError (msg : String)
  | HttpError (status : Nat) (body : String)
  | AuthenticationError (msg : String)
  | TimeoutError
  | MaxRetriesExceeded (attempts : Nat) (errors : List TranslationError)
  | ServiceError (msg : String)
  | ConfigurationError (msg : String)
  | Other (msg : String)

/-- Model of `reqwest::StatusCode::is_server_error`: true exactly for
status codes in `500..=599`. -/
def is_server_error (status : Nat) : Bool :=
  500 ≤ status && status ≤ 599

/-- Model of `TranslationError::is_retryable` (src/error.rs lines 34-45):
network errors and timeouts are retryable, an HTTP error is retryable
exactly when its status is a server error (5xx), and every other variant
(authentication, configuration, service, aggregate, other) is not. -/
def TranslationError.is_retryable : TranslationError → Bool
  | .NetworkError _ => true
  | .HttpError status _ => is_server_error status
  | .TimeoutError => true
  | _ => false

/-! ## The shared retry loop

`OpenAITranslator::translate_text_with_retry` (src/openai/mod.rs 225-256) and
`MicrosoftTranslator::translate_batch` (src/microsoft/mod.rs 216-249) run the
same loop, differing only in the type of the successful value:

  for attempt in 0..=max_retries {
      if attempt > 0 { sleep(100ms * 2^(attempt-1)); }
      match try_once(attempt) {
          Ok(r) => return Ok(r),
          Err(e) => if e.is_retryable() { errors.push(e) } else { return Err(e) }
      }
  }
  Err(MaxRetriesExceeded { attempts: max_retries + 1, errors })

The single attempt is abstracted as `op : Nat → Except TranslationError α`
(the attempt index determines the outcome). The run result records the
outcome, how many attempts were actually performed, and the backoff delays
(in milliseconds) incurred, in order. -/

/-- Result of one run of the retry loop: final outcome, number of attempts
actually performed, and the list of backoff delays slept through, in order. -/
structure RunResult (α : Type) where
  outcome : Except TranslationError α
  attempts : Nat
  delaysMs : List Nat

/-- The body of the retry loop, recursing on the number of remaining loop
iterations. `attempt` is the index of the next attempt; `errors` and `delays`
accumulate in order. When the iteration budget is exhausted the aggregate
`MaxRetriesExceeded` carries the attempt count and all recorded errors. -/
def retryGo (op : Nat → Except TranslationError α) :
    Nat → Nat → List TranslationError → List Nat → RunResult α
  | 0, attempt, errors, delays =>
    ⟨.error (.MaxRetriesExceeded attempt errors), attempt, delays⟩
  | remaining + 1, attempt, errors, delays =>
    let delays' := if attempt > 0 then delays ++ [100 * 2 ^ (attempt - 1)] else delays
    match op attempt with
    | .ok r => ⟨.ok r, attempt + 1, delays'⟩
    | .error e =>
      if e.is_retryable then
        retryGo op remaining (attempt + 1) (errors ++ [e]) delays'
      else
        ⟨.error e, attempt + 1, delays'⟩

/-- The full retry loop, iterating attempts `0..=maxRetries`. -/
def runRetry (op : Nat → Except TranslationError α) (maxRetries : Nat) : RunResult α :=
  retryGo op (maxRetries + 1) 0 [] []

/-- Model of `OpenAITranslator::translate_text_with_retry`
(src/openai/mod.rs 225-256): the retry loop at result type `String`,
where `op` models `try_translate_single` at each attempt index. -/
def translate_text_with_retry (op : Nat → Except TranslationError String)
    (maxRetries : Nat) : RunResult String :=
  runRetry op maxRetries

theorem retryGo_all_fail (op : Nat → Except TranslationError α)
    (errs : Nat → TranslationError)
    (hop : ∀ k, op k = .error (errs k))
    (hr : ∀ k, (errs k).is_retryable = true) :
    ∀ remaining attempt errors delays, 1 ≤ attempt →
      retryGo op remaining attempt errors delays =
        ⟨.error (.MaxRetriesExceeded (attempt + remaining)
            (errors ++ (List.range' attempt remaining).map errs)),
          attempt + remaining,
          delays ++ (List.range' attempt remaining).map (fun a => 100 * 2 ^ (a - 1))⟩ := by
  intro remaining
  induction remaining with
  | zero => intro attempt errors delays _; simp [retryGo]
  | succ n ih =>
    intro attempt errors delays hattempt
    have h1 : attempt > 0 := hattempt
    simp only [retryGo, hop attempt, hr attempt, if_pos h1, if_pos rfl]
    rw [ih (attempt + 1) (errors ++ [errs attempt])
      (delays ++ [100 * 2 ^ (attempt - 1)]) (Nat.le_succ_of_le hattempt)]
    rw [List.range'_succ]
    simp [List.append_assoc]
    omega

theorem retryGo_delays_shape (op : Nat → Except TranslationError α) :
    ∀ remaining attempt errors delays, 1 ≤ attempt →
      delays = (List.range (attempt - 1)).map (fun i => 100 * 2 ^ i) →
      (retryGo op remaining attempt errors delays).delaysMs =
        (List.range ((retryGo op remaining attempt errors delays).attempts - 1)).map
          (fun i => 100 * 2 ^ i) := by
  intro remaining
  induction remaining with
  | zero =>
    intro attempt errors delays _ hdelays
    simpa [retryGo] using hdelays
  | succ n ih =>
    intro attempt errors delays hattempt hdelays
    have h1 : attempt > 0 := hattempt
    have hstep : delays ++ [100 * 2 ^ (attempt - 1)] =
        (List.range attempt).map (fun i => 100 * 2 ^ i) := by
      have : attempt = (attempt - 1) + 1 := by omega
      rw [hdelays, this, List.range_succ]
      simp
    simp only [retryGo, if_pos h1]
    cases hcase : op attempt with
    | ok r => simpa using hstep
    | error e =>
      by_cases hre : e.is_retryable
      · simp only [hre, if_pos rfl]
        exact ih (attempt + 1) (errors ++ [e]) (delays ++ [100 * 2 ^ (attempt - 1)])
          (by omega) (by simpa using hstep)
      · simp only [hre]
        simpa using hstep

theorem runRetry_first_step (op : Nat → Except TranslationError α) (N : Nat) :
    runRetry op N =
      match op 0 with
      | .ok r => ⟨.ok r, 1, []⟩
      | .error e =>
        if e.is_retryable then retryGo op N 1 [e] [] else ⟨.error e, 1, []⟩ := by
  cases hcase : op 0 <;> simp [runRetry, retryGo, hcase]

theorem runRetry_delays_shape (op : Nat → Except TranslationError α) (N : Nat) :
    (runRetry op N).delaysMs =
      (List.range ((runRetry op N).attempts - 1)).map (fun i => 100 * 2 ^ i) := by
  rw [runRetry_first_step]
  cases hcase : op 0 with
  | ok r => simp
  | error e =>
    by_cases hre : e.is_retryable
    · simp only [hre, if_true]
      exact retryGo_delays_shape op N 1 [e] [] (le_refl 1) (by simp)
    · simp [hre]

/-- C1: for `max_retries = N`, an operation failing with a retryable error on
every attempt is attempted exactly `N + 1` times and yields
`MaxRetriesExceeded` with `attempts = N + 1` and all `N + 1` per-attempt
errors in attempt order; an operation failing with a non-retryable error on
its first attempt returns that error after exactly 1 attempt with no backoff
delay incurred. -/
theorem retry_exhaustion_and_fail_fast (N : Nat)
    (op1 : Nat → Except TranslationError String) (errs : Nat → TranslationError)
    (hop : ∀ k, op1 k = Except.error (errs k))
    (hr : ∀ k, (errs k).is_retryable = true)
    (op2 : Nat → Except TranslationError String) (e : TranslationError)
    (h0 : op2 0 = Except.error e) (hnr : e.is_retryable = false) :
    translate_text_with_retry op1 N =
      ⟨Except.error (.MaxRetriesExceeded (N + 1) ((List.range (N + 1)).map errs)),
        N + 1, (List.range N).map (fun i => 100 * 2 ^ i)⟩
    ∧ translate_text_with_retry op2 N = ⟨Except.error e, 1, []⟩ := by
  constructor
  · show runRetry op1 N = _
    rw [runRetry_first_step, hop 0]
    simp only [hr 0, if_true]
    rw [retryGo_all_fail op1 errs hop hr N 1 [errs 0] [] (le_refl 1)]
    have hrange : List.range (N + 1) = 0 :: (List.range N).map (1 + ·) := by
      rw [List.range_eq_range', List.range'_succ, List.range'_eq_map_range]
    have hdelays : (List.range' 1 N).map (fun a => 100 * 2 ^ (a - 1)) =
        (List.range N).map (fun i => 100 * 2 ^ i) := by
      rw [List.range'_eq_map_range, List.map_map]
      exact List.map_congr_left fun i _ => by simp
    rw [hrange, hdelays, List.range'_eq_map_range, List.map_map]
    simp [Nat.add_comm]
  · show runRetry op2 N = _
    rw [runRetry_first_step, h0]
    simp [hnr]

/-- Witness for `retry_exhaustion_and_fail_fast` at `N = 2`, an always-timeout
operation and an always-authentication-failure operation: three attempts with
delays 100 ms and 200 ms versus one attempt with no delay. -/
theorem retry_exhaustion_and_fail_fast_witness :
    translate_text_with_retry (fun _ => Except.error TranslationError.TimeoutError) 2 =
      ⟨Except.error (TranslationError.MaxRetriesExceeded 3
          [TranslationError.TimeoutError, TranslationError.TimeoutError,
            TranslationError.TimeoutError]),
        3, [100, 200]⟩
    ∧ translate_text_with_retry
        (fun _ => Except.error (TranslationError.AuthenticationError "denied")) 2 =
      ⟨Except.error (TranslationError.AuthenticationError "denied"), 1, []⟩ := by
  have h := retry_exhaustion_and_fail_fast 2
    (fun _ => Except.error TranslationError.TimeoutError) (fun _ => TranslationError.TimeoutError)
    (fun _ => rfl) (fun _ => rfl)
    (fun _ => Except.error (TranslationError.AuthenticationError "denied"))
    (TranslationError.AuthenticationError "denied") rfl rfl
  exact ⟨h.1.trans rfl, h.2⟩

/-- C2, counterexample: an HTTP 429 (rate-limit) response is classified as
NOT retryable by `TranslationError::is_retryable`, so it IS in the
non-retryable class, contrary to the claim's final clause. -/
theorem http_429_is_not_retryable :
    (TranslationError.HttpError 429 "Too Many Requests").is_retryable = false := rfl

/-- C2, amended: NetworkError and TimeoutError are retryable; HttpError is
retryable exactly when the status is server-class (5xx); AuthenticationError,
ConfigurationError and ServiceError are non-retryable; and EVERY 4xx-class
client response, the rate-limit status 429 included, is non-retryable. -/
theorem is_retryable_classification :
    (∀ m, (TranslationError.NetworkError m).is_retryable = true)
    ∧ TranslationError.TimeoutError.is_retryable = true
    ∧ (∀ s b, ((TranslationError.HttpError s b).is_retryable = true ↔ 500 ≤ s ∧ s ≤ 599))
    ∧ (∀ m, (TranslationError.AuthenticationError m).is_retryable = false)
    ∧ (∀ m, (TranslationError.ConfigurationError m).is_retryable = false)
    ∧ (∀ m, (TranslationError.ServiceError m).is_retryable = false)
    ∧ (∀ s b, 400 ≤ s → s ≤ 499 → (TranslationError.HttpError s b).is_retryable = false) := by
  refine ⟨fun _ => rfl, rfl, fun s b => ?_, fun _ => rfl, fun _ => rfl, fun _ => rfl,
    fun s b h1 h2 => ?_⟩
  · simp [TranslationError.is_retryable, is_server_error]
  · simp only [TranslationError.is_retryable, is_server_error]
    simp only [Bool.and_eq_false_iff, decide_eq_false_iff_not, not_le]
    omega

/-- Witness for `is_retryable_classification`: a 404 client error is
non-retryable. -/
theorem is_retryable_classification_witness :
    (TranslationError.HttpError 404 "not found").is_retryable = false :=
  is_retryable_classification.2.2.2.2.2.2 404 "not found" (by decide) (by decide)

/-- C5: in every run of the retry loop, the backoff delay slept before the
k-th retry (for k ≥ 1; no delay precedes the first attempt) is
100 ms × 2^(k−1), i.e. 100 ms, 200 ms, 400 ms, and so on. -/
theorem backoff_delay_schedule (op : Nat → Except TranslationError String) (N k : Nat)
    (_hk : 1 ≤ k)
    (hlen : k - 1 < (translate_text_with_retry op N).delaysMs.length) :
    (translate_text_with_retry op N).delaysMs.getD (k - 1) 0 = 100 * 2 ^ (k - 1) := by
  have hshape := runRetry_delays_shape op N
  show (runRetry op N).delaysMs.getD (k - 1) 0 = 100 * 2 ^ (k - 1)
  rw [hshape]
  have hlen' : k - 1 <
      ((List.range ((runRetry op N).attempts - 1)).map (fun i => 100 * 2 ^ i)).length := by
    rw [← hshape]; exact hlen
  rw [List.getD_eq_getElem _ _ hlen']
  simp

/-- Witness for `backoff_delay_schedule` at `N = 3`, `k = 3` with an
always-failing retryable operation: the third retry's delay is 400 ms. -/
theorem backoff_delay_schedule_witness :
    1 ≤ 3
    ∧ 3 - 1 < (translate_text_with_retry
        (fun _ => Except.error TranslationError.TimeoutError) 3).delaysMs.length
    ∧ (translate_text_with_retry
        (fun _ => Except.error TranslationError.TimeoutError) 3).delaysMs.getD (3 - 1) 0 =
      100 * 2 ^ (3 - 1) :=
  ⟨by decide, by decide,
    backoff_delay_schedule (fun _ => Except.error TranslationError.TimeoutError) 3 3
      (by decide) (by decide)⟩

/-! ## OpenAI translator state (src/openai/mod.rs)

`Client` (the HTTP handle) and the per-key `Semaphore` carry no decidable
control state of their own and are elided from the state model; the
semaphore's behavior is a property of the tokio runtime (see C9).
`Instant` timestamps are `Nat` seconds. -/

/-- Model of `OpenAIConfig` (src/openai/mod.rs 15-28). -/
structure OpenAIConfig where
  base_url : String
  model : String
  api_keys : List String
  rpm_limit : Nat
  concurrent_limit : Nat
  system_prompt : Option String

/-- Model of `KeyTracker` (src/openai/mod.rs 106-111): the per-key
`request_times` vector, present exactly when RPM limiting is in use
(the concurrency semaphore is elided, see above). -/
structure KeyTracker where
  requestTimes : Option (List Nat)

/-- Model of `OpenAITranslator` (src/openai/mod.rs 137-144). -/
structure OpenAITranslator where
  config : OpenAIConfig
  key_trackers : List KeyTracker
  current_key_index : Nat

/-- Model of `OpenAITranslator::new` (src/openai/mod.rs 148-167): build one
tracker per configured key, with a fresh empty `request_times` list when
`rpm_limit > 0` and none otherwise, and a cursor starting at 0. The
constructor is total: it performs no emptiness check on the key pool. -/
def OpenAITranslator.new (config : OpenAIConfig) : OpenAITranslator :=
  { config := config
    key_trackers := config.api_keys.map fun _ =>
      { requestTimes := if config.rpm_limit > 0 then some [] else none }
    current_key_index := 0 }

/-- Model of `OpenAITranslator::get_next_key_index` (src/openai/mod.rs
170-175) as a function of the shared cursor: returns the pre-advance cursor
value and the advanced cursor `(cursor + 1) % numKeys`. -/
def get_next_key_index (numKeys : Nat) (cursor : Nat) : Nat × Nat :=
  (cursor, (cursor + 1) % numKeys)

/-- Model of `OpenAITranslator::wait_for_rate_limit` (src/openai/mod.rs
190-205) as a function of the tracker's `request_times` list and the current
instant `now` (seconds): when the list is present, drop entries of age ≥ 60 s,
sleep `60 − (now − oldest)` when the remaining count has reached `rpm_limit`,
then push `now` (the instant captured before the sleep). Returns the updated
list and the slept duration in seconds. -/
def wait_for_rate_limit (rpm_limit : Nat) (times : Option (List Nat)) (now : Nat) :
    Option (List Nat) × Nat :=
  match times with
  | none => (none, 0)
  | some ts =>
    let ts' := ts.filter fun t => now - t < 60
    let sleepSecs :=
      if rpm_limit > 0 ∧ rpm_limit ≤ ts'.length then
        match ts'.head? with
        | some oldest => if now - oldest < 60 then 60 - (now - oldest) else 0
        | none => 0
      else 0
    (some (ts' ++ [now]), sleepSecs)

/-- The admission algorithm as the spec words it, for comparison with
`wait_for_rate_limit`: drop stale entries, admit immediately when space
remains, otherwise wait until the oldest entry ages out and RE-EVALUATE the
window at the post-sleep instant before recording the admission (so the
recorded timestamp is the post-sleep instant and newly stale entries are
dropped). -/
def wait_for_rate_limit_spec (rpm_limit : Nat) (times : Option (List Nat)) (now : Nat) :
    Option (List Nat) × Nat :=
  match times with
  | none => (none, 0)
  | some ts =>
    let ts' := ts.filter fun t => now - t < 60
    if ts'.length < rpm_limit then (some (ts' ++ [now]), 0)
    else
      let sleepSecs :=
        match ts'.head? with
        | some oldest => if now - oldest < 60 then 60 - (now - oldest) else 0
        | none => 0
      let now' := now + sleepSecs
      (some ((ts'.filter fun t => now' - t < 60) ++ [now']), sleepSecs)

/-- Model of `reqwest::StatusCode::is_success`: status codes `200..=299`. -/
def is_success (status : Nat) : Bool :=
  200 ≤ status && status ≤ 299

/-- Outcome of the one HTTP round trip inside a single translation attempt,
supplied by the external transport collaborator: a transport timeout, a
transport failure, or a response with status, raw body text, and (for
success bodies) the parsed chat choices' message contents — `Except.error`
modelling a `serde_json` parse failure with its message. -/
inductive HttpOutcome where
  | timeout
  | transportFailure (msg : String)
  | response (status : Nat) (body : String) (parsed : Except String (List String))

/-- Result of one modelled `try_translate_single` call: the call outcome,
the cursor and per-key `request_times` lists after the call, whether the
network was reached, and the seconds slept in the RPM governor. -/
structure SingleCallResult where
  result : Except TranslationError String
  cursor : Nat
  trackerTimes : List (Option (List Nat))
  networkCalled : Bool
  sleptSecs : Nat

/-- Model of `OpenAITranslator::try_translate_single` (src/openai/mod.rs
259-336) over explicit shared state (`times` is the per-key `request_times`
and `cursor` the shared key index, `now` the current instant): the empty-pool
check comes first and short-circuits everything; then key selection, RPM
admission for the selected key's tracker, the HTTP round trip (outcome
supplied as `http`), status check, and extraction of the first choice.
Timeout-client construction and semaphore acquisition cannot fail in the
model (their failure arms in the source are unreachable absent runtime
shutdown). -/
def try_translate_single (tr : OpenAITranslator) (times : List (Option (List Nat)))
    (cursor : Nat) (now : Nat) (http : HttpOutcome) : SingleCallResult :=
  if tr.config.api_keys.isEmpty then
    ⟨.error (.ConfigurationError "No API keys configured"), cursor, times, false, 0⟩
  else
    let sel := get_next_key_index tr.config.api_keys.length cursor
    let adm := wait_for_rate_limit tr.config.rpm_limit (times.getD sel.1 none) now
    let times' := times.set sel.1 adm.1
    match http with
    | .timeout => ⟨.error .TimeoutError, sel.2, times', true, adm.2⟩
    | .transportFailure m => ⟨.error (.NetworkError m), sel.2, times', true, adm.2⟩
    | .response status body parsed =>
      if is_success status then
        match parsed with
        | .error m =>
          ⟨.error (.ServiceError ("JSON parsing error: " ++ m)), sel.2, times', true, adm.2⟩
        | .ok choices =>
          match choices.head? with
          | some content => ⟨.ok content, sel.2, times', true, adm.2⟩
          | none =>
            ⟨.error (.ServiceError "No translation results returned"), sel.2, times', true, adm.2⟩
      else ⟨.error (.HttpError status body), sel.2, times', true, adm.2⟩

/-- C3, counterexample: with `rpm_limit = 2`, recorded timestamps 0 s and
30 s and the attempt arriving at 50 s, the code sleeps 10 s but then records
the PRE-sleep instant 50 and keeps the entry 0 (which is 60 s old once the
sleep ends), yielding `[0, 30, 50]`, whereas the claim's algorithm
(re-evaluate the window before recording) would drop 0 and record 60,
yielding `[30, 60]`: the code does not re-evaluate the window after
suspending. -/
theorem wait_for_rate_limit_no_reevaluation :
    wait_for_rate_limit 2 (some [0, 30]) 50 = (some [0, 30, 50], 10)
    ∧ wait_for_rate_limit_spec 2 (some [0, 30]) 50 = (some [30, 60], 10)
    ∧ wait_for_rate_limit 2 (some [0, 30]) 50 ≠ wait_for_rate_limit_spec 2 (some [0, 30]) 50 := by
  refine ⟨rfl, rfl, ?_⟩
  decide

/-- C3, amended: when RPM limiting is enabled (`rpm_limit > 0`), every
admission attempt first drops recorded timestamps of age ≥ 60 s; if fewer
than `rpm_limit` remain it proceeds with no wait, otherwise it waits
`60 − (now − oldest)` seconds until the oldest remaining entry ages out;
in either case it then records the admission under the PRE-sleep timestamp
without re-evaluating the window after the sleep. When `rpm_limit = 0` the
check is disabled entirely and the constructor keeps no timestamp list. -/
theorem wait_for_rate_limit_behavior (rpmLimit : Nat) (ts : List Nat) (now : Nat)
    (cfg : OpenAIConfig) (hpos : 0 < rpmLimit) :
    (wait_for_rate_limit rpmLimit (some ts) now).1 =
        some ((ts.filter fun t => now - t < 60) ++ [now])
    ∧ ((ts.filter fun t => now - t < 60).length < rpmLimit →
        (wait_for_rate_limit rpmLimit (some ts) now).2 = 0)
    ∧ (∀ oldest, rpmLimit ≤ (ts.filter fun t => now - t < 60).length →
        (ts.filter fun t => now - t < 60).head? = some oldest →
        (wait_for_rate_limit rpmLimit (some ts) now).2 = 60 - (now - oldest))
    ∧ (cfg.rpm_limit = 0 →
        wait_for_rate_limit cfg.rpm_limit none now = (none, 0)
        ∧ ∀ tr ∈ (OpenAITranslator.new cfg).key_trackers, tr.requestTimes = none) := by
  refine ⟨rfl, fun hlt => ?_, fun oldest hle hhead => ?_, fun hzero => ⟨rfl, fun tr htr => ?_⟩⟩
  · simp only [wait_for_rate_limit]
    rw [if_neg (by omega)]
  · have hmem : oldest ∈ ts.filter fun t => now - t < 60 :=
      List.mem_of_mem_head? hhead
    have hage : now - oldest < 60 := by
      have := List.mem_filter.mp hmem
      simpa using this.2
    simp only [wait_for_rate_limit]
    rw [if_pos ⟨hpos, hle⟩, hhead]
    simp [hage]
  · simp only [OpenAITranslator.new, List.mem_map] at htr
    obtain ⟨_, _, rfl⟩ := htr
    simp [hzero]

/-- Witness for `wait_for_rate_limit_behavior` at `rpm_limit = 2`,
timestamps `[0, 30]`, `now = 50` and an RPM-disabled configuration. -/
theorem wait_for_rate_limit_behavior_witness :
    (wait_for_rate_limit 2 (some [0, 30]) 50).1 = some [0, 30, 50]
    ∧ (wait_for_rate_limit 2 (some [0, 30]) 50).2 = 60 - (50 - 0)
    ∧ wait_for_rate_limit 0 none 50 = (none, 0)
    ∧ ∀ tr ∈ (OpenAITranslator.new ⟨"https://api.openai.com/v1", "gpt-3.5-turbo",
        ["k1", "k2"], 0, 10, none⟩).key_trackers, tr.requestTimes = none := by
  have h := wait_for_rate_limit_behavior 2 [0, 30] 50
    ⟨"https://api.openai.com/v1", "gpt-3.5-turbo", ["k1", "k2"], 0, 10, none⟩ (by decide)
  exact ⟨h.1.trans (by decide), h.2.2.1 0 (by decide) (by decide), (h.2.2.2 rfl).1,
    (h.2.2.2 rfl).2⟩

/-- Model of the sequence of key indices produced by `n` consecutive
uncontended `get_next_key_index` calls starting from a given cursor. -/
def selections (numKeys cursor : Nat) : Nat → List Nat
  | 0 => []
  | n + 1 =>
    let sel := get_next_key_index numKeys cursor
    sel.1 :: selections numKeys sel.2 n

theorem selections_eq_map (numKeys : Nat) (hN : 1 ≤ numKeys) :
    ∀ n cursor, cursor < numKeys →
      selections numKeys cursor n = (List.range n).map fun i => (cursor + i) % numKeys := by
  intro n
  induction n with
  | zero => intro cursor _; rfl
  | succ m ih =>
    intro cursor hc
    have hstep : (cursor + 1) % numKeys < numKeys := Nat.mod_lt _ (by omega)
    rw [selections, List.range_succ_eq_map, List.map_cons]
    simp only [get_next_key_index]
    rw [ih ((cursor + 1) % numKeys) hstep]
    congr 1
    · simp [Nat.mod_eq_of_lt hc]
    · rw [List.map_map]
      refine List.map_congr_left fun i _ => ?_
      show ((cursor + 1) % numKeys + i) % numKeys = (cursor + Nat.succ i) % numKeys
      rw [Nat.mod_add_mod]
      congr 1
      omega

/-- C6: for a non-empty pool of `N` keys with the cursor at `c < N`, `N`
consecutive uncontended `get_next_key_index` selections return the indices
`c, c+1 mod N, …` — each key index exactly once (the selection list is a
permutation of `range N`), in insertion order starting from the current
cursor — and the `(N+1)`-th selection returns the first selected index `c`
again. -/
theorem round_robin_property (N c : Nat) (hN : 1 ≤ N) (hc : c < N) :
    selections N c N = ((List.range N).map fun i => (c + i) % N)
    ∧ List.Perm (selections N c N) (List.range N)
    ∧ selections N c (N + 1) = selections N c N ++ [c] := by
  have hmap := selections_eq_map N hN N c hc
  have hnodup : (selections N c N).Nodup := by
    rw [hmap]
    refine List.Nodup.map_on ?_ (List.nodup_range N)
    intro i hi j hj hij
    have hi' : i < N := List.mem_range.mp hi
    have hj' : j < N := List.mem_range.mp hj
    have : i % N = j % N := Nat.ModEq.add_left_cancel' c hij
    rwa [Nat.mod_eq_of_lt hi', Nat.mod_eq_of_lt hj'] at this
  have hsubset : (selections N c N).toFinset ⊆ Finset.range N := by
    intro x hx
    rw [List.mem_toFinset, hmap, List.mem_map] at hx
    obtain ⟨i, _, rfl⟩ := hx
    exact Finset.mem_range.mpr (Nat.mod_lt _ (by omega))
  have hlen : (selections N c N).length = N := by rw [hmap]; simp
  have hcard : (selections N c N).toFinset.card = N := by
    rw [List.toFinset_card_of_nodup hnodup, hlen]
  have hfin : (selections N c N).toFinset = Finset.range N :=
    Finset.eq_of_subset_of_card_le hsubset (by rw [hcard, Finset.card_range])
  refine ⟨hmap, ?_, ?_⟩
  · refine List.perm_of_nodup_nodup_toFinset_eq hnodup (List.nodup_range N) ?_
    rw [hfin]
    ext x
    simp
  · rw [hmap, selections_eq_map N hN (N + 1) c hc, List.range_succ, List.map_append]
    simp [Nat.add_mod_right, Nat.mod_eq_of_lt hc]

/-- Witness for `round_robin_property` with 3 keys and the cursor at 1:
the selections run 1, 2, 0 and the fourth selection returns 1 again. -/
theorem round_robin_property_witness :
    selections 3 1 3 = [1, 2, 0]
    ∧ List.Perm (selections 3 1 3) (List.range 3)
    ∧ selections 3 1 4 = [1, 2, 0, 1] := by
  have h := round_robin_property 3 1 (by decide) (by decide)
  exact ⟨by decide, h.2.1, by decide⟩

/-- C7, counterexample: `OpenAITranslator::new` is total (its Rust signature
returns `Self`, not a `Result`) and performs no emptiness check: constructing
from a configuration with an empty key pool succeeds and yields an empty
tracker list, and it is each individual call (`try_translate_single`) that
then returns the `ConfigurationError` — so the check is per call, not at
construction time, contrary to the claim. -/
theorem empty_pool_not_checked_at_construction :
    (OpenAITranslator.new ⟨"https://api.openai.com/v1", "gpt-3.5-turbo", [], 60, 10,
        none⟩).key_trackers = []
    ∧ (OpenAITranslator.new ⟨"https://api.openai.com/v1", "gpt-3.5-turbo", [], 60, 10,
        none⟩).config.api_keys = []
    ∧ (try_translate_single (OpenAITranslator.new ⟨"https://api.openai.com/v1",
        "gpt-3.5-turbo", [], 60, 10, none⟩) [] 0 0 HttpOutcome.timeout).result =
      .error (.ConfigurationError "No API keys configured") :=
  ⟨rfl, rfl, rfl⟩

/-- C7, amended: an empty credential pool produces `ConfigurationError`, but
the emptiness check runs per call, at the start of `try_translate_single`,
not at construction: `new` succeeds on an empty pool, and every attempt then
fails fast with `ConfigurationError` before key selection, RPM admission or
any network activity (state unchanged, no network call, no sleep). -/
theorem empty_pool_fails_per_call (cfg : OpenAIConfig)
    (times : List (Option (List Nat))) (cursor now : Nat) (http : HttpOutcome)
    (h : cfg.api_keys = []) :
    (OpenAITranslator.new cfg).config = cfg
    ∧ (OpenAITranslator.new cfg).key_trackers = []
    ∧ try_translate_single (OpenAITranslator.new cfg) times cursor now http =
      ⟨.error (.ConfigurationError "No API keys configured"), cursor, times, false, 0⟩ := by
  refine ⟨rfl, by simp [OpenAITranslator.new, h], ?_⟩
  simp [try_translate_single, OpenAITranslator.new, h]

/-- Witness for `empty_pool_fails_per_call` on the default configuration with
no keys supplied. -/
theorem empty_pool_fails_per_call_witness :
    try_translate_single
        (OpenAITranslator.new ⟨"https://api.openai.com/v1", "gpt-3.5-turbo", [], 60, 10, none⟩)
        [] 0 0 (HttpOutcome.response 200 "" (.ok ["hola"])) =
      ⟨.error (.ConfigurationError "No API keys configured"), 0, [], false, 0⟩ :=
  (empty_pool_fails_per_call ⟨"https://api.openai.com/v1", "gpt-3.5-turbo", [], 60, 10, none⟩
    [] 0 0 (HttpOutcome.response 200 "" (.ok ["hola"])) rfl).2.2

/-! ## Microsoft translator (src/microsoft/mod.rs)

The token cache is the pair of fields `cached_token : Option String` and
`token_expiry : Option Nat` (an `Instant` in seconds). The outcome of each
call to the external authentication endpoint is supplied as a function from
the call index, and the single instant `now` stands for the clock during the
whole `get_auth_token` call (the call's own sleeps are short against the
540 s expiry horizon and are reported explicitly in the result). -/

/-- Model of `MicrosoftConfig` (src/microsoft/mod.rs 18-25). -/
structure MicrosoftConfig where
  endpoint : Option String
  api_key : Option String
  concurrent_limit : Nat

/-- Outcome of one call to the external authentication endpoint
(`https://edge.microsoft.com/translate/auth`): a success status whose body
reads as the token, a success status whose body fails to read, a non-success
status, or a transport failure of `send()` itself. -/
inductive AuthAttemptOutcome where
  | success (token : String)
  | readFailure (msg : String)
  | httpFailure (status : Nat)
  | transportFailure (msg : String)

/-- An authentication outcome on which the Rust `while` loop proceeds to its
next iteration rather than returning: a non-success status or a transport
failure with budget remaining. -/
def AuthAttemptOutcome.continues : AuthAttemptOutcome → Bool
  | .httpFailure _ => true
  | .transportFailure _ => true
  | _ => false

/-- Result of the authentication loop of `get_auth_token`: the returned
value, the freshly cached (token, expiry) pair if one was stored, the number
of external authentication calls performed, and the seconds slept between
attempts, in order. -/
structure AuthCallsResult where
  result : Except TranslationError String
  newCache : Option (String × Nat)
  authCalls : Nat
  sleepsSecs : List Nat

/-- Model of the `while auth_attempts > 0` loop of `get_auth_token`
(src/microsoft/mod.rs 159-195): `fuel` is the value of `auth_attempts` at
the top of the loop (initially 3) and `idx` the index of the next endpoint
call. A success caches `(token, now + 540)` and returns; a body-read failure
returns `AuthenticationError` at once; a non-success status or transport
failure returns `AuthenticationError` or `NetworkError` respectively when it
was the final attempt, and otherwise sleeps 1 s and continues. -/
def authLoop (attempts : Nat → AuthAttemptOutcome) (now : Nat) :
    Nat → Nat → AuthCallsResult
  | _, 0 =>
    ⟨.error (.AuthenticationError
        "Failed to get Microsoft Translator authorization after retries"),
      none, 0, []⟩
  | idx, remaining + 1 =>
    match attempts idx with
    | .success token => ⟨.ok token, some (token, now + 540), 1, []⟩
    | .readFailure m =>
      ⟨.error (.AuthenticationError ("Failed to read auth response: " ++ m)), none, 1, []⟩
    | .httpFailure status =>
      if remaining = 0 then
        ⟨.error (.AuthenticationError
            ("Failed to authenticate with Microsoft Translator: HTTP " ++ toString status)),
          none, 1, []⟩
      else
        let rest := authLoop attempts now (idx + 1) remaining
        ⟨rest.result, rest.newCache, rest.authCalls + 1, 1 :: rest.sleepsSecs⟩
    | .transportFailure m =>
      if remaining = 0 then ⟨.error (.NetworkError m), none, 1, []⟩
      else
        let rest := authLoop attempts now (idx + 1) remaining
        ⟨rest.result, rest.newCache, rest.authCalls + 1, 1 :: rest.sleepsSecs⟩

/-- Result of a full `get_auth_token` call: the returned value, the token
cache fields after the call, the number of external authentication calls
performed, and the seconds slept between attempts. -/
structure AuthResult where
  result : Except TranslationError String
  cached_token : Option String
  token_expiry : Option Nat
  authCalls : Nat
  sleepsSecs : List Nat

/-- The cache-miss path of `get_auth_token`: run the authentication loop
with 3 attempts and fold its cache update into the token-cache fields. -/
def refresh_auth_token (ct : Option String) (te : Option Nat) (now : Nat)
    (attempts : Nat → AuthAttemptOutcome) : AuthResult :=
  let r := authLoop attempts now 0 3
  match r.newCache with
  | some p => ⟨r.result, some p.1, some p.2, r.authCalls, r.sleepsSecs⟩
  | none => ⟨r.result, ct, te, r.authCalls, r.sleepsSecs⟩

/-- Model of `MicrosoftTranslator::get_auth_token` (src/microsoft/mod.rs
142-196): a statically configured API key is returned at once with no
endpoint call; otherwise the cached token is returned when both cache fields
are present and `expiry.saturating_duration_since(now) > 60` (truncated
subtraction on `Nat`); otherwise the authentication loop runs. -/
def get_auth_token (cfg : MicrosoftConfig) (ct : Option String) (te : Option Nat)
    (now : Nat) (attempts : Nat → AuthAttemptOutcome) : AuthResult :=
  match cfg.api_key with
  | some api_key => ⟨.ok api_key, ct, te, 0, []⟩
  | none =>
    match ct, te with
    | some token, some expiry =>
      if 60 < expiry - now then ⟨.ok token, ct, te, 0, []⟩
      else refresh_auth_token ct te now attempts
    | _, _ => refresh_auth_token ct te now attempts

/-- Model of `MicrosoftTranslator::clear_cached_token` (src/microsoft/mod.rs
199-202): both cache fields are set to `None`, unconditionally. -/
def clear_cached_token (_ct : Option String) (_te : Option Nat) :
    Option String × Option Nat :=
  (none, none)

/-- Model of the non-success-status branch of
`MicrosoftTranslator::try_translate_batch` (src/microsoft/mod.rs 324-351) as
it affects the token cache: on an HTTP 401 response `clear_cached_token`
runs; on any other status the cache is untouched. -/
def try_translate_batch_on_error_status (status : Nat) (ct : Option String)
    (te : Option Nat) : Option String × Option Nat :=
  if status = 401 then clear_cached_token ct te else (ct, te)

theorem authLoop_calls_bound (attempts : Nat → AuthAttemptOutcome) (now : Nat) :
    ∀ fuel idx, (authLoop attempts now idx fuel).authCalls ≤ fuel
      ∧ ∀ s ∈ (authLoop attempts now idx fuel).sleepsSecs, s = 1 := by
  intro fuel
  induction fuel with
  | zero => intro idx; exact ⟨by simp [authLoop], by simp [authLoop]⟩
  | succ n ih =>
    intro idx
    cases hcase : attempts idx with
    | success tok => exact ⟨by simp [authLoop, hcase], by simp [authLoop, hcase]⟩
    | readFailure m => exact ⟨by simp [authLoop, hcase], by simp [authLoop, hcase]⟩
    | httpFailure s =>
      by_cases hn : n = 0
      · subst hn; exact ⟨by simp [authLoop, hcase], by simp [authLoop, hcase]⟩
      · refine ⟨?_, ?_⟩
        · have := (ih (idx + 1)).1
          simp only [authLoop, hcase, if_neg hn]
          omega
        · have := (ih (idx + 1)).2
          simp only [authLoop, hcase, if_neg hn, List.mem_cons]
          rintro s (rfl | hs)
          · rfl
          · exact this s hs
    | transportFailure m =>
      by_cases hn : n = 0
      · subst hn; exact ⟨by simp [authLoop, hcase], by simp [authLoop, hcase]⟩
      · refine ⟨?_, ?_⟩
        · have := (ih (idx + 1)).1
          simp only [authLoop, hcase, if_neg hn]
          omega
        · have := (ih (idx + 1)).2
          simp only [authLoop, hcase, if_neg hn, List.mem_cons]
          rintro s (rfl | hs)
          · rfl
          · exact this s hs

theorem authLoop_calls_pos (attempts : Nat → AuthAttemptOutcome) (now : Nat)
    (fuel idx : Nat) (hfuel : 1 ≤ fuel) :
    1 ≤ (authLoop attempts now idx fuel).authCalls := by
  obtain ⟨n, rfl⟩ : ∃ n, fuel = n + 1 := ⟨fuel - 1, by omega⟩
  cases hcase : attempts idx <;> by_cases hn : n = 0 <;>
    simp [authLoop, hcase, hn]

theorem authLoop_success_at (attempts : Nat → AuthAttemptOutcome) (now : Nat)
    (tok : String) :
    ∀ fuel idx i, i < fuel →
      (∀ j, j < i → (attempts (idx + j)).continues = true) →
      attempts (idx + i) = .success tok →
      authLoop attempts now idx fuel =
        ⟨.ok tok, some (tok, now + 540), i + 1, List.replicate i 1⟩ := by
  intro fuel
  induction fuel with
  | zero => intro idx i hi; exact absurd hi (Nat.not_lt_zero i)
  | succ n ih =>
    intro idx i hi hcont hsucc
    cases i with
    | zero =>
      rw [Nat.add_zero] at hsucc
      simp [authLoop, hsucc]
    | succ i' =>
      have hc0 : (attempts idx).continues = true := by
        simpa using hcont 0 (by omega)
      have hrec : authLoop attempts now (idx + 1) n =
          ⟨.ok tok, some (tok, now + 540), i' + 1, List.replicate i' 1⟩ := by
        refine ih (idx + 1) i' (by omega) (fun j hj => ?_) ?_
        · have := hcont (j + 1) (by omega)
          rwa [show idx + (j + 1) = idx + 1 + j by omega] at this
        · rwa [show idx + 1 + i' = idx + (i' + 1) by omega]
      have hn0 : n ≠ 0 := by omega
      cases hcase : attempts idx with
      | success t => rw [hcase] at hc0; simp [AuthAttemptOutcome.continues] at hc0
      | readFailure m => rw [hcase] at hc0; simp [AuthAttemptOutcome.continues] at hc0
      | httpFailure s =>
        simp only [authLoop, hcase, if_neg hn0, hrec]
        simp [List.replicate_succ]
      | transportFailure m =>
        simp only [authLoop, hcase, if_neg hn0, hrec]
        simp [List.replicate_succ]

/-- C4: `get_auth_token` returns a statically configured API key immediately
with no endpoint call; otherwise it returns the cached token exactly when
the remaining lifetime exceeds 60 s (a stale or absent cache always triggers
at least one endpoint call); the endpoint is called at most 3 times with a
fixed 1-second delay between attempts (no backoff growth); a success on
attempt `i` (after `i` continuing failures) stores the fresh token with
expiry `now + 540` (9 minutes ahead) and returns it after `i + 1` calls; if
all 3 attempts fail on HTTP status the result is `AuthenticationError`, and
`NetworkError` when the transport itself fails on the final attempt. -/
theorem get_auth_token_contract (cfg : MicrosoftConfig) (ct : Option String)
    (te : Option Nat) (now : Nat) (attempts : Nat → AuthAttemptOutcome) :
    (∀ k, cfg.api_key = some k →
      get_auth_token cfg ct te now attempts = ⟨.ok k, ct, te, 0, []⟩)
    ∧ (∀ tok exp, cfg.api_key = none → ct = some tok → te = some exp →
        60 < exp - now →
        get_auth_token cfg ct te now attempts = ⟨.ok tok, ct, te, 0, []⟩)
    ∧ (∀ tok exp, cfg.api_key = none → ct = some tok → te = some exp →
        exp - now ≤ 60 →
        1 ≤ (get_auth_token cfg ct te now attempts).authCalls)
    ∧ (cfg.api_key = none →
        (get_auth_token cfg ct te now attempts).authCalls ≤ 3
        ∧ ∀ s ∈ (get_auth_token cfg ct te now attempts).sleepsSecs, s = 1)
    ∧ (∀ tok i, i < 3 → (∀ j, j < i → (attempts j).continues = true) →
        attempts i = .success tok →
        refresh_auth_token ct te now attempts =
          ⟨.ok tok, some tok, some (now + 540), i + 1, List.replicate i 1⟩)
    ∧ (∀ s0 s1 s2, attempts 0 = .httpFailure s0 → attempts 1 = .httpFailure s1 →
        attempts 2 = .httpFailure s2 →
        refresh_auth_token ct te now attempts =
          ⟨.error (.AuthenticationError
              ("Failed to authenticate with Microsoft Translator: HTTP " ++ toString s2)),
            ct, te, 3, [1, 1]⟩)
    ∧ (∀ m, (∀ j, j < 2 → (attempts j).continues = true) →
        attempts 2 = .transportFailure m →
        refresh_auth_token ct te now attempts =
          ⟨.error (.NetworkError m), ct, te, 3, [1, 1]⟩) := by
  have hrefresh_calls : (refresh_auth_token ct te now attempts).authCalls =
      (authLoop attempts now 0 3).authCalls := by
    cases hnc : (authLoop attempts now 0 3).newCache <;>
      simp [refresh_auth_token, hnc]
  have hrefresh_sleeps : (refresh_auth_token ct te now attempts).sleepsSecs =
      (authLoop attempts now 0 3).sleepsSecs := by
    cases hnc : (authLoop attempts now 0 3).newCache <;>
      simp [refresh_auth_token, hnc]
  refine ⟨?_, ?_, ?_, ?_, ?_, ?_, ?_⟩
  · intro k hk
    simp [get_auth_token, hk]
  · intro tok exp hkey hct hte hfresh
    subst hct hte
    simp [get_auth_token, hkey, hfresh]
  · intro tok exp hkey hct hte hstale
    subst hct hte
    have : get_auth_token cfg (some tok) (some exp) now attempts =
        refresh_auth_token (some tok) (some exp) now attempts := by
      simp [get_auth_token, hkey, Nat.not_lt.mpr hstale]
    rw [this, hrefresh_calls]
    exact authLoop_calls_pos attempts now 3 0 (by omega)
  · intro hkey
    have hbound := authLoop_calls_bound attempts now 3 0
    have hcases : get_auth_token cfg ct te now attempts =
          refresh_auth_token ct te now attempts
        ∨ ∃ tok, get_auth_token cfg ct te now attempts = ⟨.ok tok, ct, te, 0, []⟩ := by
      rcases ct with _ | tok <;> rcases te with _ | exp
      · left; simp [get_auth_token, hkey]
      · left; simp [get_auth_token, hkey]
      · left; simp [get_auth_token, hkey]
      · by_cases hfresh : 60 < exp - now
        · right; exact ⟨tok, by simp [get_auth_token, hkey, hfresh]⟩
        · left; simp [get_auth_token, hkey, hfresh]
    rcases hcases with heq | ⟨tok, heq⟩
    · rw [heq]
      refine ⟨?_, ?_⟩
      · rw [hrefresh_calls]; exact hbound.1
      · rw [hrefresh_sleeps]; exact hbound.2
    · rw [heq]
      exact ⟨by simp, by simp⟩
  · intro tok i hi hcont hsucc
    have := authLoop_success_at attempts now tok 3 0 i hi
      (fun j hj => by simpa using hcont j hj) (by simpa using hsucc)
    simp [refresh_auth_token, this]
  · intro s0 s1 s2 h0 h1 h2
    have hloop : authLoop attempts now 0 3 =
        ⟨.error (.AuthenticationError
            ("Failed to authenticate with Microsoft Translator: HTTP " ++ toString s2)),
          none, 3, [1, 1]⟩ := by
      simp [authLoop, h0, h1, h2]
    simp [refresh_auth_token, hloop]
  · intro m hcont h2
    have hc0 : (attempts 0).continues = true := hcont 0 (by omega)
    have hc1 : (attempts 1).continues = true := hcont 1 (by omega)
    have hloop : authLoop attempts now 0 3 =
        ⟨.error (.NetworkError m), none, 3, [1, 1]⟩ := by
      cases hcase0 : attempts 0 with
      | success t => rw [hcase0] at hc0; simp [AuthAttemptOutcome.continues] at hc0
      | readFailure s => rw [hcase0] at hc0; simp [AuthAttemptOutcome.continues] at hc0
      | httpFailure s =>
        cases hcase1 : attempts 1 with
        | success t => rw [hcase1] at hc1; simp [AuthAttemptOutcome.continues] at hc1
        | readFailure s' => rw [hcase1] at hc1; simp [AuthAttemptOutcome.continues] at hc1
        | httpFailure s' => simp [authLoop, hcase0, hcase1, h2]
        | transportFailure m' => simp [authLoop, hcase0, hcase1, h2]
      | transportFailure m0 =>
        cases hcase1 : attempts 1 with
        | success t => rw [hcase1] at hc1; simp [AuthAttemptOutcome.continues] at hc1
        | readFailure s' => rw [hcase1] at hc1; simp [AuthAttemptOutcome.continues] at hc1
        | httpFailure s' => simp [authLoop, hcase0, hcase1, h2]
        | transportFailure m' => simp [authLoop, hcase0, hcase1, h2]
    simp [refresh_auth_token, hloop]

/-- Witness for `get_auth_token_contract`: a static key is returned with no
endpoint call; a cached token with 100 s of lifetime left is served from the
cache; and a refresh that fails with a 503 on the first attempt and succeeds
on the second returns the fresh token after 2 calls and one 1-second sleep,
caching it with expiry 7 + 540. -/
theorem get_auth_token_contract_witness :
    get_auth_token ⟨none, some "KEY", 10⟩ none none 0 (fun _ => .httpFailure 500) =
      ⟨.ok "KEY", none, none, 0, []⟩
    ∧ get_auth_token ⟨none, none, 10⟩ (some "cached") (some 200) 100
        (fun _ => .httpFailure 500) = ⟨.ok "cached", some "cached", some 200, 0, []⟩
    ∧ refresh_auth_token none none 7
        (fun i => match i with | 0 => .httpFailure 503 | _ => .success "fresh") =
      ⟨.ok "fresh", some "fresh", some 547, 2, [1]⟩ := by
  have h := get_auth_token_contract ⟨none, none, 10⟩ none none 7
    (fun i => match i with | 0 => .httpFailure 503 | _ => .success "fresh")
  have h1 := get_auth_token_contract ⟨none, some "KEY", 10⟩ none none 0
    (fun _ => .httpFailure 500)
  have h2 := get_auth_token_contract ⟨none, none, 10⟩ (some "cached") (some 200) 100
    (fun _ => .httpFailure 500)
  refine ⟨h1.1 "KEY" rfl, h2.2.1 "cached" 200 rfl rfl rfl (by decide), ?_⟩
  have hs := h.2.2.2.2.1 "fresh" 1 (by decide)
    (fun j hj => by
      have : j = 0 := by omega
      subst this; rfl)
    rfl
  simpa using hs

/-- C8: `clear_cached_token` clears both the cached token and its expiry
unconditionally, the backend layer invokes it exactly on an HTTP 401
response, and a `get_auth_token` call made after the clearing (in the
dynamic-token mode the cache governs, i.e. with no static API key
configured) performs at least one fresh external authentication call,
regardless of the prior token and expiry state. -/
theorem invalidation_forces_fresh_auth (cfg : MicrosoftConfig) (ct : Option String)
    (te : Option Nat) (now : Nat) (attempts : Nat → AuthAttemptOutcome)
    (hkey : cfg.api_key = none) :
    clear_cached_token ct te = (none, none)
    ∧ try_translate_batch_on_error_status 401 ct te = (none, none)
    ∧ (∀ status, status ≠ 401 →
        try_translate_batch_on_error_status status ct te = (ct, te))
    ∧ 1 ≤ (get_auth_token cfg (clear_cached_token ct te).1
          (clear_cached_token ct te).2 now attempts).authCalls := by
  refine ⟨rfl, rfl, fun status hs => by simp [try_translate_batch_on_error_status, hs], ?_⟩
  have heq : get_auth_token cfg none none now attempts =
      refresh_auth_token none none now attempts := by
    simp [get_auth_token, hkey]
  show 1 ≤ (get_auth_token cfg none none now attempts).authCalls
  rw [heq]
  have hcalls : (refresh_auth_token none none now attempts).authCalls =
      (authLoop attempts now 0 3).authCalls := by
    cases hnc : (authLoop attempts now 0 3).newCache <;>
      simp [refresh_auth_token, hnc]
  rw [hcalls]
  exact authLoop_calls_pos attempts now 3 0 (by omega)

/-- Witness for `invalidation_forces_fresh_auth`: after clearing a cache that
still had 1000 s of lifetime, the next `get_auth_token` performs an endpoint
call. -/
theorem invalidation_forces_fresh_auth_witness :
    clear_cached_token (some "old") (some 2000) = (none, none)
    ∧ 1 ≤ (get_auth_token ⟨none, none, 10⟩ none none 0
          (fun _ => .success "t")).authCalls :=
  ⟨(invalidation_forces_fresh_auth ⟨none, none, 10⟩ (some "old") (some 2000) 0
      (fun _ => .success "t") rfl).1,
    (invalidation_forces_fresh_auth ⟨none, none, 10⟩ (some "old") (some 2000) 0
      (fun _ => .success "t") rfl).2.2.2⟩

/-! ## Batch post-processing (src/microsoft/mod.rs 380-396) -/

/-- Model of `TranslationResult` (src/microsoft/mod.rs 104-107). -/
structure TranslationResult where
  text : String
  «to» : String

/-- Model of `MicrosoftTranslation` (src/microsoft/mod.rs 96-100); the
optional detected language is modelled by its language name (its
floating-point confidence score plays no role in any modelled logic). -/
structure MicrosoftTranslation where
  detected_language : Option String
  translations : List TranslationResult

/-- Model of `MicrosoftTranslator::translate_batch` (src/microsoft/mod.rs
216-249): the identical retry loop as `translate_text_with_retry`, at result
type `List MicrosoftTranslation`, with `op` modelling `try_translate_batch`
at each attempt index. -/
def translate_batch (op : Nat → Except TranslationError (List MicrosoftTranslation))
    (maxRetries : Nat) : RunResult (List MicrosoftTranslation) :=
  runRetry op maxRetries

/-- Model of the post-processing of `translate_batch_to_strings`
(src/microsoft/mod.rs 380-396) applied to a successful batch result: keep
the first translation of each result when there is one, then project the
text. -/
def translate_batch_to_strings (results : List MicrosoftTranslation) : List String :=
  ((results.filterMap fun res => res.translations.head?).map fun tr => tr.text)

/-- C10: on a successful batch request, `translate_batch_to_strings` returns,
in order, the first translation text of each result whose translations list
is non-empty, silently skipping results with an empty translations list —
so the output (always at most as long as the input) can be strictly shorter
than the input and positional correspondence is then lost, as the concrete
two-element input with an empty first result shows. -/
theorem translate_batch_to_strings_skips_empty (results : List MicrosoftTranslation) :
    translate_batch_to_strings results =
      ((results.filter fun res => !res.translations.isEmpty).map
        fun res => (res.translations.map TranslationResult.text).headD "")
    ∧ (translate_batch_to_strings results).length ≤ results.length
    ∧ translate_batch_to_strings
        [⟨none, []⟩, ⟨some "fr", [⟨"bonjour", "fr"⟩, ⟨"salut", "fr"⟩]⟩] = ["bonjour"]
    ∧ ([(⟨none, []⟩ : MicrosoftTranslation),
        ⟨some "fr", [⟨"bonjour", "fr"⟩, ⟨"salut", "fr"⟩]⟩].length = 2
      ∧ (["bonjour"] : List String).length = 1) := by
  refine ⟨?_, ?_, rfl, rfl, rfl⟩
  · induction results with
    | nil => rfl
    | cons res rest ih =>
      cases hts : res.translations with
      | nil => simpa [translate_batch_to_strings, hts] using ih
      | cons t ts =>
        simp only [translate_batch_to_strings] at ih ⊢
        simp [List.filterMap_cons, List.filter_cons, hts, ih]
  · have : (translate_batch_to_strings results).length ≤
        (results.filterMap fun res => res.translations.head?).length := by
      simp [translate_batch_to_strings]
    exact this.trans (List.length_filterMap_le _ _)

end AsyncTranslate
